import Mathlib

/-!
Verification of the geo-clipper marshaling layer (src/src/lib.rs).

The development shallowly embeds the Rust source: `f64` coordinates are
modelled as exact rationals (`ℚ`), `i64` engine coordinates as `ℤ`, and the
Rust `as i64` float-to-integer cast as truncation toward zero.  The external
Clipper engine is opaque in the source, so orchestrators are parametrised by
an arbitrary engine function and additionally record a trace of the events
that the Rust body performs in order (engine call, decode, buffer release).
-/

set_option autoImplicit false

namespace GeoClipper

/-- A 2-D floating point coordinate (`geo_types::Coordinate<f64>`),
modelled with exact rational coordinates. -/
structure Coord where
  x : ℚ
  y : ℚ
deriving DecidableEq

/-- `geo_types::LineString<f64>`: an ordered sequence of coordinates.
Closed rings follow the convention that first and last points are equal. -/
abbrev LineString := List Coord

/-- `geo_types::Polygon<f64>`: one exterior ring plus interior rings. -/
structure Polygon where
  exterior : LineString
  interiors : List LineString
deriving DecidableEq

/-- `geo_types::MultiPolygon<f64>`. -/
abbrev MultiPolygon := List Polygon

/-- `geo_types::MultiLineString<f64>`. -/
abbrev MultiLineString := List LineString

/-- Engine vertex `Vertice = [i64; 2]`; index 0 is x, index 1 is y. -/
abbrev Vertice := ℤ × ℤ

/-- Engine role tag `PolyType` (`ptSubject` / `ptClip`). -/
inductive PolyType where
  | subject
  | clip
deriving DecidableEq, BEq

/-- Truncation toward zero: the value of the Rust cast `q as i64`
for an in-range float `q`. -/
def ratTrunc (q : ℚ) : ℤ := q.num.tdiv (q.den : ℤ)

/-- The vertex pushed for one coordinate:
`[(coordinate.x * factor) as i64, (coordinate.y * factor) as i64]`. -/
def toVertice (c : Coord) (factor : ℚ) : Vertice :=
  (ratTrunc (c.x * factor), ratTrunc (c.y * factor))

/-- A materialized engine `Path` descriptor: its vertex run and closed flag
(the source's `Path { vertices, vertices_count, closed }` after
`get_clipper_polygons` rewrote the view). -/
structure EPath where
  vertices : List Vertice
  closed : Bool
deriving DecidableEq

/-- A materialized engine `Polygon` descriptor: its path run and role tag. -/
structure EPolygon where
  paths : List EPath
  type_ : PolyType
deriving DecidableEq

/-- `OwnedPolygon`: exclusively owns the role tags, closed flags and vertex
storage built from input shapes.  The source stores these as three parallel
vectors (`polygons : Vec<ClipperPolygon>`, `paths : Vec<Vec<Path>>`,
`vertices : Vec<Vec<Vec<Vertice>>>`) whose descriptor pointer fields stay
null until `get_clipper_polygons` materializes them; only the role tag,
closed flag and vertex data carry information before that point. -/
structure OwnedPolygon where
  polygons : List PolyType
  paths : List (List Bool)
  vertices : List (List (List Vertice))
deriving DecidableEq

/-- A fresh buffer (`Vec::with_capacity` allocations are empty). -/
def emptyOwned : OwnedPolygon := { polygons := [], paths := [], vertices := [] }

/-- `OwnedPolygon::get_clipper_polygons`: zips the three parallel stores and
rewrites every descriptor view, returning the materialized polygon list. -/
def OwnedPolygon.get_clipper_polygons (self : OwnedPolygon) : List EPolygon :=
  (self.polygons.zip (self.paths.zip self.vertices)).map fun pt =>
    { paths := (pt.2.1.zip pt.2.2).map fun pv => { vertices := pv.2, closed := pv.1 }
      type_ := pt.1 }

/-- `OwnedPolygon::add_polygon`: for the exterior ring followed by each
interior ring, push the ring's vertices skipping the first stored coordinate
(`line_string.0.iter().skip(1)`) and a path descriptor with `closed: 1`;
finally push one polygon descriptor carrying the role tag. -/
def OwnedPolygon.add_polygon (self : OwnedPolygon) (polygon : Polygon)
    (poly_type : PolyType) (factor : ℚ) : OwnedPolygon :=
  { polygons := self.polygons ++ [poly_type]
    paths := self.paths ++ [(polygon.exterior :: polygon.interiors).map fun _ => true]
    vertices := self.vertices ++
      [(polygon.exterior :: polygon.interiors).map fun r =>
        (r.drop 1).map fun c => toVertice c factor] }

/-- `OwnedPolygon::add_line_strings`: for each member line string, push every
stored coordinate (`line_string.0.iter()`, no skip) and a path descriptor
with `closed: 0`; finally push one polygon descriptor carrying the role tag. -/
def OwnedPolygon.add_line_strings (self : OwnedPolygon)
    (line_strings : MultiLineString) (poly_type : PolyType) (factor : ℚ) :
    OwnedPolygon :=
  { polygons := self.polygons ++ [poly_type]
    paths := self.paths ++ [line_strings.map fun _ => false]
    vertices := self.vertices ++
      [line_strings.map fun r => r.map fun c => toVertice c factor] }

/-- `OwnedPolygon::add_polygons`: folds `add_polygon` over the members. -/
def OwnedPolygon.add_polygons (self : OwnedPolygon) (polygon : MultiPolygon)
    (poly_type : PolyType) (factor : ℚ) : OwnedPolygon :=
  polygon.foldl (fun polygons p => polygons.add_polygon p poly_type factor) self

/-- The three concrete implementors of `ToOwnedPolygon` in the source:
`Polygon<f64>`, `MultiPolygon<f64>` and `MultiLineString<f64>`.
(`LineString<f64>` has no `ToOwnedPolygon` impl.) -/
inductive Shape where
  | poly (p : Polygon)
  | multiPoly (mp : MultiPolygon)
  | multiLine (ml : MultiLineString)

/-- `ToOwnedPolygon::to_polygon_owned`, dispatched over the implementors:
each builds a fresh buffer and runs the matching converter. -/
def Shape.to_polygon_owned : Shape → PolyType → ℚ → OwnedPolygon
  | .poly p, pt, f => emptyOwned.add_polygon p pt f
  | .multiPoly mp, pt, f => emptyOwned.add_polygons mp pt f
  | .multiLine ml, pt, f => emptyOwned.add_line_strings ml pt f

/-- Raw engine path: a flat integer vertex array. -/
abbrev RawPath := List Vertice

/-- Raw engine polygon: a flat collection of paths, no hole metadata. -/
abbrev RawPolygon := List RawPath

/-- Raw engine result (`Polygons` returned by `execute` / `offset`). -/
abbrev RawResult := List RawPolygon

/-- `impl From<ClipperPath> for LineString<f64>`: every vertex coordinate is
divided by the factor; order is preserved. -/
def clipperPathToLineString (path : RawPath) (factor : ℚ) : LineString :=
  path.map fun v => { x := (v.1 : ℚ) / factor, y := (v.2 : ℚ) / factor }

/-- `impl From<ClipperPolygons> for MultiPolygon<f64>`: `filter_map` over the
engine polygons; `paths.first()?` drops zero-path polygons, the first path
becomes the exterior and `skip(1)` paths the holes. -/
def clipperPolygonsToMultiPolygon (polygons : RawResult) (factor : ℚ) :
    MultiPolygon :=
  polygons.filterMap fun polygon =>
    match polygon.head? with
    | none => none
    | some first =>
      some { exterior := clipperPathToLineString first factor
             interiors := (polygon.drop 1).map fun path =>
               clipperPathToLineString path factor }

/-- `impl From<ClipperPolygons> for MultiLineString<f64>`: `flat_map` over the
engine polygons of all their paths, each decoded in place. -/
def clipperPolygonsToMultiLineString (polygons : RawResult) (factor : ℚ) :
    MultiLineString :=
  polygons.flatMap fun polygon =>
    polygon.map fun path => clipperPathToLineString path factor

/-- `JoinType` with its payloads (`Square`, `Round(f64)`, `Miter(f64)`). -/
inductive JoinType where
  | square
  | round (precision : ℚ)
  | miter (limit : ℚ)
deriving DecidableEq

/-- `EndType` with its payloads. -/
inductive EndType where
  | closedPolygon
  | closedLine
  | openButt
  | openSquare
  | openRound (precision : ℚ)
deriving DecidableEq

/-- The engine's payload-free join-type code (`clipper_sys::JoinType`). -/
inductive ClipperJoinType where
  | jtSquare
  | jtRound
  | jtMiter
deriving DecidableEq

/-- The engine's payload-free end-type code (`clipper_sys::EndType`). -/
inductive ClipperEndType where
  | etClosedPolygon
  | etClosedLine
  | etOpenButt
  | etOpenSquare
  | etOpenRound
deriving DecidableEq

/-- `impl From<JoinType> for ClipperJoinType`. -/
def JoinType.toClipper : JoinType → ClipperJoinType
  | .square => .jtSquare
  | .round _ => .jtRound
  | .miter _ => .jtMiter

/-- `impl From<EndType> for ClipperEndType`. -/
def EndType.toClipper : EndType → ClipperEndType
  | .closedPolygon => .etClosedPolygon
  | .closedLine => .etClosedLine
  | .openButt => .etOpenButt
  | .openSquare => .etOpenSquare
  | .openRound _ => .etOpenRound

/-- Engine boolean operation code (`clipper_sys::ClipType`). -/
inductive ClipType where
  | ctDifference
  | ctIntersection
  | ctUnion
  | ctXor
deriving DecidableEq

/-- Engine fill rule (`clipper_sys::PolyFillType`); the layer always passes
`pftNonZero`. -/
inductive PolyFillType where
  | pftEvenOdd
  | pftNonZero
deriving DecidableEq

/-- The argument tuple handed to the engine's `offset` entry point. -/
structure OffsetArgs where
  miter_limit : ℚ
  round_precision : ℚ
  join_code : ClipperJoinType
  end_code : ClipperEndType
  polygons : List EPolygon
  delta : ℚ

/-- The argument tuple handed to the engine's `execute` entry point. -/
structure BoolArgs where
  clip_type : ClipType
  polygons : List EPolygon
  subject_fill : PolyFillType
  clip_fill : PolyFillType

/-- Resource events performed by an orchestrator body, in program order:
the engine call that allocates a raw result, the decode of that result,
and the `free_polygons` release of a raw result. -/
inductive Event where
  | engineCall (result : RawResult)
  | decoded
  | released (result : RawResult)
deriving DecidableEq

/-- Recognizes a release event. -/
def Event.isRelease : Event → Bool
  | .released _ => true
  | _ => false

/-- Everything observable about one `execute_offset_operation` call: the
engine arguments, the decoded return value, and the event trace. -/
structure OffsetOutcome where
  args : OffsetArgs
  result : MultiPolygon
  trace : List Event

/-- Everything observable about one `execute_boolean_operation` call. -/
structure BoolOutcome (R : Type) where
  args : BoolArgs
  result : R
  trace : List Event

/-- `execute_offset_operation`, parametrised by the opaque engine: derives
`miter_limit` from the join type and `round_precision` from the join type
with the end type as fallback, converts the operand with role Subject,
materializes descriptors, calls `offset`, decodes the solution as
MultiPolygon, and frees the solution. -/
def execute_offset_operation (engine : OffsetArgs → RawResult) (polygons : Shape)
    (delta : ℚ) (jt : JoinType) (et : EndType) (factor : ℚ) : OffsetOutcome :=
  let miter_limit : ℚ :=
    match jt with
    | .miter limit => limit
    | _ => 0
  let round_precision : ℚ :=
    match jt with
    | .round precision => precision
    | _ =>
      match et with
      | .openRound precision => precision
      | _ => 0
  let owned := polygons.to_polygon_owned .subject factor
  let args : OffsetArgs :=
    { miter_limit, round_precision
      join_code := jt.toClipper, end_code := et.toClipper
      polygons := owned.get_clipper_polygons, delta }
  let solution := engine args
  { args
    result := clipperPolygonsToMultiPolygon solution factor
    trace := [.engineCall solution, .decoded, .released solution] }

/-- `execute_boolean_operation`, parametrised by the opaque engine and by the
result decoder (the source is generic in `R: From<ClipperPolygons>`): converts
the subject with role Subject and the clip with role Clip, chains the
materialized subject descriptors before the clip descriptors, calls `execute`
with the fixed non-zero fill rule on both operands, decodes, and frees. -/
def execute_boolean_operation {R : Type} (engine : BoolArgs → RawResult)
    (decode : RawResult → ℚ → R) (clip_type : ClipType)
    (subject_polygons clip_polygons : Shape) (factor : ℚ) : BoolOutcome R :=
  let subject_owned := subject_polygons.to_polygon_owned .subject factor
  let clip_owned := clip_polygons.to_polygon_owned .clip factor
  let args : BoolArgs :=
    { clip_type
      polygons := subject_owned.get_clipper_polygons ++ clip_owned.get_clipper_polygons
      subject_fill := .pftNonZero, clip_fill := .pftNonZero }
  let solution := engine args
  { args
    result := decode solution factor
    trace := [.engineCall solution, .decoded, .released solution] }

/-- The `offset` method shared by the `Clipper` and `ClipperOpen` impls:
both bodies call `execute_offset_operation(self, delta * factor, jt, et, factor)`. -/
def clipper_offset (engine : OffsetArgs → RawResult) (self : Shape) (delta : ℚ)
    (join_type : JoinType) (end_type : EndType) (factor : ℚ) : OffsetOutcome :=
  execute_offset_operation engine self (delta * factor) join_type end_type factor

/-- The static shape kinds the capability traits can apply to. -/
inductive ShapeKind where
  | polygonK
  | multiPolygonK
  | lineStringK
  | multiLineStringK
deriving DecidableEq

/-- Which kinds have a `ToOwnedPolygon` impl in the source (lines 190-221):
`MultiPolygon<f64>`, `Polygon<f64>` and `MultiLineString<f64>` only. -/
def hasToOwnedPolygon : ShapeKind → Bool
  | .polygonK => true
  | .multiPolygonK => true
  | .multiLineStringK => true
  | .lineStringK => false

/-- Which kinds have an `OpenPath` impl:
`MultiLineString<f64>` and `LineString<f64>`. -/
def hasOpenPath : ShapeKind → Bool
  | .lineStringK => true
  | .multiLineStringK => true
  | _ => false

/-- Which kinds have a `ClosedPoly` impl:
`MultiPolygon<f64>` and `Polygon<f64>`. -/
def hasClosedPoly : ShapeKind → Bool
  | .polygonK => true
  | .multiPolygonK => true
  | _ => false

/-- The operation names the capability traits can declare. -/
inductive OpName where
  | difference
  | intersection
  | union
  | xor
  | offset
deriving DecidableEq

/-- Caller-facing return kinds of trait methods. -/
inductive RetKind where
  | multiPathR
  | multiPolygonR
deriving DecidableEq

/-- Signature facts of one trait method: whether it takes a clip operand,
whether that operand is bounded by `ClosedPoly`, and the return kind. -/
structure MethodSig where
  hasClipOperand : Bool
  clipClosedPoly : Bool
  ret : RetKind
deriving DecidableEq

/-- The method table of the `ClipperOpen` trait (source lines 451-469):
difference and intersection against a `ToOwnedPolygon + ClosedPoly` clip
returning `MultiLineString<f64>`, and offset returning `MultiPolygon<f64>`.
No union or xor method is declared. -/
def clipperOpenSig : OpName → Option MethodSig
  | .difference => some { hasClipOperand := true, clipClosedPoly := true, ret := .multiPathR }
  | .intersection => some { hasClipOperand := true, clipClosedPoly := true, ret := .multiPathR }
  | .offset => some { hasClipOperand := false, clipClosedPoly := false, ret := .multiPolygonR }
  | _ => none

/-- The method table of the closed-shape `Clipper` trait (lines 416-444). -/
def clipperSig : OpName → Option MethodSig
  | .difference => some { hasClipOperand := true, clipClosedPoly := true, ret := .multiPolygonR }
  | .intersection => some { hasClipOperand := true, clipClosedPoly := true, ret := .multiPolygonR }
  | .union => some { hasClipOperand := true, clipClosedPoly := true, ret := .multiPolygonR }
  | .xor => some { hasClipOperand := true, clipClosedPoly := true, ret := .multiPolygonR }
  | .offset => some { hasClipOperand := false, clipClosedPoly := false, ret := .multiPolygonR }

/-- The blanket impl `impl<U: ToOwnedPolygon + OpenPath> ClipperOpen for U`
applies to a kind exactly when it has both bounds. -/
def implementsClipperOpen (k : ShapeKind) : Bool :=
  hasToOwnedPolygon k && hasOpenPath k

/-- The blanket impl `impl<U: ToOwnedPolygon + ClosedPoly> Clipper for U`. -/
def implementsClipper (k : ShapeKind) : Bool :=
  hasToOwnedPolygon k && hasClosedPoly k

/-- An operation is exposed for an operand kind through `ClipperOpen` when
the blanket impl applies to the kind and the trait declares the method. -/
def exposesOpen (k : ShapeKind) (op : OpName) : Bool :=
  implementsClipperOpen k && (clipperOpenSig op).isSome

/-- An operation is exposed for an operand kind through `Clipper` when the
blanket impl applies to the kind and the trait declares the method. -/
def exposesClosed (k : ShapeKind) (op : OpName) : Bool :=
  implementsClipper k && (clipperSig op).isSome

theorem replicate_zip_map {α β γ : Type} (b : β) (g : α → γ) (l : List α) :
    (List.replicate l.length b).zip (l.map g) = l.map fun x => (b, g x) := by
  induction l with
  | nil => rfl
  | cons a t ih => simp only [List.length_cons, List.replicate_succ, List.map_cons,
      List.zip_cons_cons, ih]

theorem get_clipper_add_polygon (p : Polygon) (role : PolyType) (f : ℚ) :
    ((Shape.poly p).to_polygon_owned role f).get_clipper_polygons =
      [{ paths := (p.exterior :: p.interiors).map fun r =>
           { vertices := (r.drop 1).map fun c => toVertice c f, closed := true }
         type_ := role }] := by
  simp [Shape.to_polygon_owned, emptyOwned, OwnedPolygon.add_polygon,
    OwnedPolygon.get_clipper_polygons, List.zip_map', replicate_zip_map, List.map_map]

theorem get_clipper_add_line_strings (ml : MultiLineString) (role : PolyType) (f : ℚ) :
    ((Shape.multiLine ml).to_polygon_owned role f).get_clipper_polygons =
      [{ paths := ml.map fun r =>
           { vertices := r.map fun c => toVertice c f, closed := false }
         type_ := role }] := by
  simp [Shape.to_polygon_owned, emptyOwned, OwnedPolygon.add_line_strings,
    OwnedPolygon.get_clipper_polygons, List.zip_map', replicate_zip_map, List.map_map]

theorem add_polygons_eq (mp : MultiPolygon) (o : OwnedPolygon) (role : PolyType) (f : ℚ) :
    o.add_polygons mp role f =
      { polygons := o.polygons ++ mp.map fun _ => role
        paths := o.paths ++ mp.map fun p =>
          (p.exterior :: p.interiors).map fun _ => true
        vertices := o.vertices ++ mp.map fun p =>
          (p.exterior :: p.interiors).map fun r =>
            (r.drop 1).map fun c => toVertice c f } := by
  induction mp generalizing o with
  | nil => simp [OwnedPolygon.add_polygons]
  | cons p ps ih =>
    have step : o.add_polygons (p :: ps) role f =
        (o.add_polygon p role f).add_polygons ps role f := rfl
    rw [step, ih]
    simp [OwnedPolygon.add_polygon]

theorem get_clipper_add_polygons (mp : MultiPolygon) (role : PolyType) (f : ℚ) :
    ((Shape.multiPoly mp).to_polygon_owned role f).get_clipper_polygons =
      mp.map fun p =>
        { paths := (p.exterior :: p.interiors).map fun r =>
            { vertices := (r.drop 1).map fun c => toVertice c f, closed := true }
          type_ := role } := by
  rw [show (Shape.multiPoly mp).to_polygon_owned role f =
      emptyOwned.add_polygons mp role f from rfl, add_polygons_eq]
  simp [emptyOwned, OwnedPolygon.get_clipper_polygons, List.zip_map', replicate_zip_map,
    List.map_map]

/-- Claim C1: converting a Polygon-with-holes with any role and factor emits
one `PathDescriptor` per ring, the exterior ring first followed by each
interior ring in stored order, each flagged closed; and a ring whose stored
first and last points are equal loses exactly one vertex, so N stored points
yield N-1 engine vertices. -/
theorem c1_polygon_conversion (p : Polygon) (role : PolyType) (f : ℚ) :
    ∃ d : EPolygon,
      ((Shape.poly p).to_polygon_owned role f).get_clipper_polygons = [d] ∧
      d.type_ = role ∧
      d.paths = (p.exterior :: p.interiors).map
        (fun r => { vertices := (r.drop 1).map fun c => toVertice c f
                    closed := true }) ∧
      ∀ r ∈ p.exterior :: p.interiors, ∀ c : Coord,
        r.head? = some c → r.getLast? = some c →
        ((r.drop 1).map fun c2 => toVertice c2 f).length + 1 = r.length := by
  refine ⟨_, get_clipper_add_polygon p role f, rfl, rfl, ?_⟩
  intro r _ c hh _
  cases r with
  | nil => cases hh
  | cons a as => simp

/-- Witness for C1: a square ring of 4 stored points (first = last) together
with a triangular hole ring of 3 stored points (first = last) produce engine
vertex runs of 3 and 2 vertices respectively. -/
theorem c1_polygon_conversion_witness :
    ((([⟨0, 0⟩, ⟨2, 0⟩, ⟨2, 2⟩, ⟨0, 0⟩] : LineString).drop 1).map
      (fun c2 => toVertice c2 1)).length + 1 = 4 ∧
    ((([⟨1, 1⟩, ⟨1, 2⟩, ⟨1, 1⟩] : LineString).drop 1).map
      (fun c2 => toVertice c2 1)).length + 1 = 3 := by
  obtain ⟨d, -, -, -, h4⟩ :=
    c1_polygon_conversion
      { exterior := [⟨0, 0⟩, ⟨2, 0⟩, ⟨2, 2⟩, ⟨0, 0⟩]
        interiors := [[⟨1, 1⟩, ⟨1, 2⟩, ⟨1, 1⟩]] }
      PolyType.subject 1
  constructor
  · exact h4 [⟨0, 0⟩, ⟨2, 0⟩, ⟨2, 2⟩, ⟨0, 0⟩] (List.mem_cons_self _ _) ⟨0, 0⟩ rfl rfl
  · exact h4 [⟨1, 1⟩, ⟨1, 2⟩, ⟨1, 1⟩]
      (List.mem_cons_of_mem _ (List.mem_cons_self _ _)) ⟨1, 1⟩ rfl rfl

/-- Claim C3: the polygon converter always elides the first stored vertex of
every ring, with no closure check: the engine run for a ring is exactly the
scaled tail of the ring, and the full scaled ring is the scaled first point
consed onto that run — so a ring with first ≠ last silently loses its actual
first point. -/
theorem c3_first_vertex_elided (p : Polygon) (role : PolyType) (f : ℚ)
    (i : ℕ) (r : LineString) (hr : (p.exterior :: p.interiors)[i]? = some r) :
    ∃ d : EPolygon,
      ((Shape.poly p).to_polygon_owned role f).get_clipper_polygons = [d] ∧
      (d.paths[i]?.map fun pa => pa.vertices) =
        some ((r.drop 1).map fun c => toVertice c f) ∧
      ∀ c : Coord, r.head? = some c →
        (r.map fun c2 => toVertice c2 f) =
          toVertice c f :: ((r.drop 1).map fun c2 => toVertice c2 f) := by
  refine ⟨_, get_clipper_add_polygon p role f, ?_, ?_⟩
  · rw [List.getElem?_map, hr]
    rfl
  · intro c hc
    cases r with
    | nil => cases hc
    | cons a as =>
      cases hc
      simp

/-- Witness for C3: a ring `[(0,0), (2,0), (2,2)]` that violates the closure
convention (first ≠ last) is converted to the engine vertices
`[(2,0), (2,2)]`: its actual first point `(0,0)` is silently dropped. -/
theorem c3_first_vertex_elided_witness :
    ∃ d : EPolygon,
      ((Shape.poly { exterior := [⟨0, 0⟩, ⟨2, 0⟩, ⟨2, 2⟩], interiors := [] }
        ).to_polygon_owned PolyType.subject 1).get_clipper_polygons = [d] ∧
      (d.paths[0]?.map fun pa => pa.vertices) = some [(2, 0), (2, 2)] ∧
      (([⟨0, 0⟩, ⟨2, 0⟩, ⟨2, 2⟩] : LineString).map fun c2 => toVertice c2 1) =
        (0, 0) :: [(2, 0), (2, 2)] := by
  obtain ⟨d, h1, h2, h3⟩ :=
    c3_first_vertex_elided { exterior := [⟨0, 0⟩, ⟨2, 0⟩, ⟨2, 2⟩], interiors := [] }
      PolyType.subject 1 0 [⟨0, 0⟩, ⟨2, 0⟩, ⟨2, 2⟩] rfl
  refine ⟨d, h1, ?_, ?_⟩
  · rw [h2]
    norm_num [toVertice, ratTrunc]
  · rw [h3 ⟨0, 0⟩ rfl]
    norm_num [toVertice, ratTrunc]

/-- Claim C8: converting a MultiPath with any role and factor yields one
`PathDescriptor` per member path, flagged open, and every stored point is
converted — a path of N points yields N engine vertices. -/
theorem c8_multipath_conversion (ml : MultiLineString) (role : PolyType) (f : ℚ) :
    ∃ d : EPolygon,
      ((Shape.multiLine ml).to_polygon_owned role f).get_clipper_polygons = [d] ∧
      d.type_ = role ∧
      d.paths = ml.map
        (fun r => { vertices := r.map fun c => toVertice c f
                    closed := false }) ∧
      d.paths.map (fun pa => pa.vertices.length) = ml.map List.length := by
  refine ⟨_, get_clipper_add_line_strings ml role f, rfl, rfl, ?_⟩
  simp [List.map_map, Function.comp]

/-- Claim C10: a MultiPath becomes a single polygon record grouping all its
member paths, whereas a MultiPolygon becomes one polygon record per member. -/
theorem c10_grouping (ml : MultiLineString) (mp : MultiPolygon) (role : PolyType)
    (f : ℚ) :
    (∃ d : EPolygon,
      ((Shape.multiLine ml).to_polygon_owned role f).get_clipper_polygons = [d] ∧
      d.paths.length = ml.length) ∧
    ((Shape.multiPoly mp).to_polygon_owned role f).get_clipper_polygons.length =
      mp.length := by
  refine ⟨⟨_, get_clipper_add_line_strings ml role f, by simp⟩, ?_⟩
  rw [get_clipper_add_polygons]
  simp

theorem to_polygon_owned_type_tags (s : Shape) (role : PolyType) (f : ℚ) :
    (s.to_polygon_owned role f).get_clipper_polygons.map (fun d => d.type_) =
      List.replicate (s.to_polygon_owned role f).get_clipper_polygons.length role := by
  cases s with
  | poly p => rw [get_clipper_add_polygon]; rfl
  | multiPoly mp =>
    rw [get_clipper_add_polygons]
    induction mp with
    | nil => rfl
    | cons q qs ih =>
      simp only [List.map_cons, List.length_cons, List.replicate_succ]
      exact congrArg (List.cons role) ih
  | multiLine ml => rw [get_clipper_add_line_strings]; rfl

/-- Claim C5: the flat descriptor list handed to the engine's boolean entry
point is all subject descriptors (all tagged Subject) followed by all clip
descriptors (all tagged Clip). -/
theorem c5_subject_before_clip {R : Type} (engine : BoolArgs → RawResult)
    (decode : RawResult → ℚ → R) (ct : ClipType) (s c : Shape) (f : ℚ) :
    (execute_boolean_operation engine decode ct s c f).args.polygons =
      (s.to_polygon_owned PolyType.subject f).get_clipper_polygons ++
      (c.to_polygon_owned PolyType.clip f).get_clipper_polygons ∧
    (s.to_polygon_owned PolyType.subject f).get_clipper_polygons.map
      (fun d => d.type_) =
      List.replicate
        (s.to_polygon_owned PolyType.subject f).get_clipper_polygons.length
        PolyType.subject ∧
    (c.to_polygon_owned PolyType.clip f).get_clipper_polygons.map
      (fun d => d.type_) =
      List.replicate
        (c.to_polygon_owned PolyType.clip f).get_clipper_polygons.length
        PolyType.clip := by
  exact ⟨rfl, to_polygon_owned_type_tags s PolyType.subject f,
    to_polygon_owned_type_tags c PolyType.clip f⟩

/-- Claim C4: for every offset invocation, the engine receives a miter limit
equal to the Miter payload (else 0), a round precision equal to the Round
payload, falling back to the OpenRound payload and then to 0 (a Round join
beats an OpenRound end), and an offset distance equal to delta times factor. -/
theorem c4_offset_parameter_mapping (engine : OffsetArgs → RawResult)
    (shape : Shape) (d : ℚ) (jt : JoinType) (et : EndType) (f : ℚ) :
    (clipper_offset engine shape d jt et f).args.miter_limit =
      (match jt with
        | JoinType.miter limit => limit
        | _ => 0) ∧
    (clipper_offset engine shape d jt et f).args.round_precision =
      (match jt with
        | JoinType.round precision => precision
        | _ =>
          match et with
          | EndType.openRound precision => precision
          | _ => 0) ∧
    (clipper_offset engine shape d jt et f).args.delta = d * f := by
  cases jt <;> cases et <;> exact ⟨rfl, rfl, rfl⟩

/-- Claim C6: decoding an engine result as MultiPolygon keeps exactly the
engine polygons that have at least one path, in order, making the first path
the exterior and the remaining paths the holes, and divides every vertex
coordinate by the factor. -/
theorem c6_multipolygon_decoding (raw : RawResult) (f : ℚ) :
    clipperPolygonsToMultiPolygon raw f =
      (raw.filter fun polygon => !polygon.isEmpty).map
        (fun polygon =>
          { exterior := clipperPathToLineString (polygon.headD []) f
            interiors := (polygon.drop 1).map fun path =>
              clipperPathToLineString path f }) ∧
    ∀ path : RawPath, clipperPathToLineString path f =
      path.map fun v => { x := (v.1 : ℚ) / f, y := (v.2 : ℚ) / f } := by
  refine ⟨?_, fun _ => rfl⟩
  induction raw with
  | nil => rfl
  | cons poly rest ih =>
    cases poly with
    | nil =>
      simpa [clipperPolygonsToMultiPolygon, List.filterMap_cons, List.filter_cons]
        using ih
    | cons a l =>
      simp only [clipperPolygonsToMultiPolygon, List.filterMap_cons, List.filter_cons]
        at ih ⊢
      simpa using ih

/-- Claim C7: decoding an engine result as MultiPath flattens every path of
every engine polygon in polygon order then path order, dropping the grouping,
and each decoded path is exactly the engine vertex order with every
coordinate divided by the factor. -/
theorem c7_multipath_decoding (raw : RawResult) (f : ℚ) :
    clipperPolygonsToMultiLineString raw f =
      raw.flatten.map (fun path => clipperPathToLineString path f) ∧
    ∀ path : RawPath, clipperPathToLineString path f =
      path.map fun v => { x := (v.1 : ℚ) / f, y := (v.2 : ℚ) / f } := by
  refine ⟨?_, fun _ => rfl⟩
  induction raw with
  | nil => rfl
  | cons poly rest ih =>
    simp only [clipperPolygonsToMultiLineString, List.flatMap_cons, List.flatten_cons,
      List.map_append] at ih ⊢
    rw [ih]

/-- Claim C9: both orchestrators, for every engine behaviour and every input,
produce a trace whose release events number exactly one; that single release
comes last, after the engine call that allocated the released result and
after decoding. -/
theorem c9_release_exactly_once {R : Type} (engineO : OffsetArgs → RawResult)
    (engineB : BoolArgs → RawResult) (decode : RawResult → ℚ → R)
    (shape s c : Shape) (d f : ℚ) (jt : JoinType) (et : EndType) (ct : ClipType) :
    ((execute_offset_operation engineO shape d jt et f).trace.countP
        Event.isRelease = 1 ∧
      ∃ pre r, (execute_offset_operation engineO shape d jt et f).trace =
          pre ++ [Event.released r] ∧
        Event.engineCall r ∈ pre ∧ Event.decoded ∈ pre) ∧
    ((execute_boolean_operation engineB decode ct s c f).trace.countP
        Event.isRelease = 1 ∧
      ∃ pre r, (execute_boolean_operation engineB decode ct s c f).trace =
          pre ++ [Event.released r] ∧
        Event.engineCall r ∈ pre ∧ Event.decoded ∈ pre) := by
  refine ⟨⟨?_, ?_⟩, ⟨?_, ?_⟩⟩
  · simp [execute_offset_operation, List.countP_cons, Event.isRelease]
  · exact ⟨[Event.engineCall _, Event.decoded], _, rfl, by simp, by simp⟩
  · simp [execute_boolean_operation, List.countP_cons, Event.isRelease]
  · exact ⟨[Event.engineCall _, Event.decoded], _, rfl, by simp, by simp⟩

/-- Claim C2 counterexample: `LineString<f64>` (the Path operand kind) is
declared `OpenPath` but has no `ToOwnedPolygon` impl, so the `ClipperOpen`
blanket impl does not apply to it and it exposes no operation at all — in
particular not difference, contrary to the claim. -/
theorem c2_counterexample :
    exposesOpen ShapeKind.lineStringK OpName.difference = false := rfl

/-- Claim C2 amended: the `ClipperOpen` capability set declares exactly
difference and intersection (each against a `ClosedPoly`-bounded clip
operand, returning MultiPath) plus offset (returning MultiPolygon), and no
union or xor; through the blanket impl these three operations are exposed for
MultiPath (MultiLineString) operands, while the Path (LineString) kind,
lacking `ToOwnedPolygon`, exposes none of them. -/
theorem c2_open_capabilities :
    (exposesOpen ShapeKind.multiLineStringK OpName.difference = true ∧
     exposesOpen ShapeKind.multiLineStringK OpName.intersection = true ∧
     exposesOpen ShapeKind.multiLineStringK OpName.offset = true ∧
     exposesOpen ShapeKind.multiLineStringK OpName.union = false ∧
     exposesOpen ShapeKind.multiLineStringK OpName.xor = false) ∧
    (clipperOpenSig OpName.union = none ∧ clipperOpenSig OpName.xor = none) ∧
    (clipperOpenSig OpName.difference =
       some { hasClipOperand := true, clipClosedPoly := true
              ret := RetKind.multiPathR } ∧
     clipperOpenSig OpName.intersection =
       some { hasClipOperand := true, clipClosedPoly := true
              ret := RetKind.multiPathR } ∧
     clipperOpenSig OpName.offset =
       some { hasClipOperand := false, clipClosedPoly := false
              ret := RetKind.multiPolygonR }) ∧
    (exposesOpen ShapeKind.lineStringK OpName.difference = false ∧
     exposesOpen ShapeKind.lineStringK OpName.intersection = false ∧
     exposesOpen ShapeKind.lineStringK OpName.offset = false ∧
     exposesOpen ShapeKind.lineStringK OpName.union = false ∧
     exposesOpen ShapeKind.lineStringK OpName.xor = false) :=
  ⟨⟨rfl, rfl, rfl, rfl, rfl⟩, ⟨rfl, rfl⟩, ⟨rfl, rfl, rfl⟩,
   rfl, rfl, rfl, rfl, rfl⟩

end GeoClipper
